import Mathlib

/-!
Verification of the stm32-device firmware (src/stm32-device/src/main.rs).

Shallow embedding conventions:
* IEEE-754 f32 values are modelled by the type `F32`: either NaN or an exact
  rational value.  Comparisons on NaN are false, exactly as in IEEE-754 and
  Rust.  Multiplication is modelled exactly over the rationals (the concrete
  inputs used in counterexamples and witnesses below are all exactly
  representable in f32 and their products are exact, so no rounding of the
  hardware arithmetic is visible at those points).
* The Rust f32-to-u16 `as` cast truncates toward zero and saturates; this is
  `F32.toU16`.
* Three-axis sensor vectors (nalgebra Vector3<f32>, all samples finite) are
  modelled by `V3` over the rationals.
* The two-slot circular DMA receive buffer (CircBuffer over
  [[u8; COMMAND_SIZE]; 2]) is `CircBuf`: two byte-list slots plus the DMA
  channel NDTR register (remaining transfer count).  `COMMAND_SIZE` is owned
  by the external common crate, so the slot capacity is kept symbolic as the
  length of the slot lists.
* The decoder `Command::from_byte_slice` and the orientation model
  (SpatialOrientation.adjust) are external collaborators; the tasks that call
  them are parameterised by an arbitrary function standing for them.
* Fallible hardware reads (`mpu.get_gyro()`, `mpu.get_acc_angles()`) are
  `Option V3`; an `.expect` on a failed read is a panic, modelled by the task
  returning `none` (the task aborts and performs none of its later effects).
-/

namespace Stm32

/-- Model of an f32 value: NaN, or an exact finite rational. -/
inductive F32 where
  | nan : F32
  | fin : ℚ → F32
deriving DecidableEq, Repr

/-- The f32 `<=` comparison: false whenever either operand is NaN. -/
def F32.fle : F32 → F32 → Bool
  | F32.fin a, F32.fin b => decide (a ≤ b)
  | _, _ => false

/-- f32 multiplication; NaN is absorbing, finite products are modelled
exactly. -/
def F32.mul : F32 → F32 → F32
  | F32.fin a, F32.fin b => F32.fin (a * b)
  | _, _ => F32.nan

/-- The Rust `as u16` cast from f32: NaN goes to 0, finite values are
truncated toward zero and saturated into [0, 65535]. -/
def F32.toU16 : F32 → ℕ
  | F32.nan => 0
  | F32.fin q => if q < 0 then 0 else min 65535 (Int.toNat ⌊q⌋)

/-- Three-axis sensor vector (nalgebra Vector3<f32>, finite samples). -/
structure V3 where
  x : ℚ
  y : ℚ
  z : ℚ
deriving DecidableEq, Repr

/-- Componentwise vector addition. -/
def V3.add (a b : V3) : V3 := ⟨a.x + b.x, a.y + b.y, a.z + b.z⟩

/-- Componentwise vector subtraction (used as `raw_gyro - offset`). -/
def V3.sub (a b : V3) : V3 := ⟨a.x - b.x, a.y - b.y, a.z - b.z⟩

/-- The calibration combining closure from mpu_init, line 173:
`|l, r| (l + r) / 2.0`, componentwise on Vector3. -/
def calibBlend (l r : V3) : V3 :=
  ⟨(l.x + r.x) / 2, (l.y + r.y) / 2, (l.z + r.z) / 2⟩

/-- True componentwise arithmetic mean of a nonempty sample list; this is NOT
what the firmware computes, it is stated only to be compared against. -/
def V3.mean (gs : List V3) : Option V3 :=
  match gs with
  | [] => none
  | _ =>
    some ⟨(gs.map V3.x).sum / gs.length,
          (gs.map V3.y).sum / gs.length,
          (gs.map V3.z).sum / gs.length⟩

/-- Rust `Iterator::reduce` with the calibration closure: `none` on an empty
iterator, otherwise a left fold of the tail onto the head. -/
def reduceHalf : List V3 → Option V3
  | [] => none
  | g :: gs => some (gs.foldl calibBlend g)

/-- The calibration portion of mpu_init (lines 171..174):
`(0..2000).flat_map(|_| mpu.get_gyro().ok()).reduce(|l, r| (l + r) / 2.0)`.
`reads` is the list of the 2000 read outcomes; `flat_map ... ok()` keeps the
successful ones in order. -/
def calibOffset (reads : List (Option V3)) : Option V3 :=
  reduceHalf (reads.filterMap id)

/-- The whole mpu_init task body after `mpu.init()` (lines 171..179), as the
arguments it hands to gyro::spawn: the bias offset and the initial
accelerometer angles.  `none` models the panic of an `.expect`: on
`no calibration measurements` (line 174) or a failed acc-angles read
(line 175) the task aborts and gyro is never spawned. -/
def mpu_init (reads : List (Option V3)) (accAngles : Option V3) :
    Option (V3 × V3) := do
  let offset ← calibOffset reads
  let angles ← accAngles
  pure (offset, angles)

/-- A decoded command frame (common::Command): enable flag and throttle. -/
structure Command where
  throttle_on : Bool
  throttle : F32
deriving Repr

/-- The two-slot circular DMA receive transfer: slot contents plus the DMA
channel NDTR register (number of bytes still to be transferred out of the
double-length 2 * capacity round). -/
structure CircBuf where
  slot0 : List ℕ
  slot1 : List ℕ
  ndtr : ℕ
deriving DecidableEq, Repr

/-- Line 203: `(buf[0].len() as u32 * 2) - rx.channel.ch().ndtr.read().bits()`
— the number of bytes actually received. -/
def rxComputedLen (b : CircBuf) : ℕ :=
  b.slot0.length * 2 - b.ndtr

/-- Line 205: the byte slice handed to Command::from_byte_slice is `&buf[0]`,
the whole first slot. -/
def rxDecodeInput (b : CircBuf) : List ℕ :=
  b.slot0

/-- Releasing and restarting the circular read on the same two slots
(lines 223..227): the transfer is re-armed with a full double-length round
pending. -/
def rearm (b : CircBuf) : CircBuf :=
  { slot0 := b.slot0, slot1 := b.slot1, ndtr := b.slot0.length * 2 }

/-- The device state touched by the USART1 interrupt handler: the optional
armed receive transfer (`recv: Option<CircBuffer<...>>`), the enable output
line PB4, and the PWM channel C3 duty register. -/
structure DeviceState where
  recv : Option CircBuf
  en : Bool
  duty : ℕ
deriving Repr

/-- The on_rx USART1 idle-line interrupt handler (lines 199..229),
parameterised by the external decoder `Command::from_byte_slice` and by the
hardware `get_max_duty()` value.  If the transfer has already been taken the
handler does nothing; otherwise it stops the transfer, decodes the first
slot, applies the enable flag unconditionally, applies the throttle only
when `0.0 <= throttle <= 1.0`, and re-arms the circular read before
returning. -/
def on_rx (decode : List ℕ → Command) (maxDuty : ℕ) (s : DeviceState) :
    DeviceState :=
  match s.recv with
  | none => s
  | some b =>
    let command := decode (rxDecodeInput b)
    let en := command.throttle_on
    let duty :=
      if command.throttle.fle (F32.fin 1) && (F32.fin 0).fle command.throttle
      then (F32.mul (F32.fin (maxDuty : ℚ)) command.throttle).toU16
      else s.duty
    { recv := some (rearm b), en := en, duty := duty }

/-- The parts of init (lines 58..148) relevant to the claims, applied to an
arbitrary pre-init hardware state: arm the circular receive transfer on two
zeroed COMMAND_SIZE slots (lines 94..95) and drive the enable line low
(line 121).  The PWM duty register is not written during init. -/
def init (cap : ℕ) (s0 : DeviceState) : DeviceState :=
  let armed : CircBuf :=
    { slot0 := List.replicate cap 0, slot1 := List.replicate cap 0,
      ndtr := cap * 2 }
  let s1 : DeviceState := { s0 with recv := some armed }
  let s2 : DeviceState := { s1 with en := false }
  s2

/-- One activation of the gyro streaming task (lines 182..197), parameterised
by the external orientation model adjust function and with `SO` the
orientation state type.  Returns `none` when a sensor read fails (the
`.expect` panics: the task instance aborts, nothing is spawned); otherwise
returns the updated state threaded to the successor together with the list
of monotonic deadlines passed to gyro::spawn_at.  `spawn_next_at` is taken
at the start of the activation as `monotonics::now() + 4.micros()`. -/
def gyro {SO : Type} (adjust : SO → V3 → V3 → SO)
    (now : ℕ) (gyroRead accRead : Option V3) (offset : V3) (s : SO) :
    Option (SO × List ℕ) := do
  let spawn_next_at := now + 4
  let raw_gyro ← gyroRead
  let angles ← accRead
  let s2 := adjust s (raw_gyro.sub offset) angles
  pure (s2, [spawn_next_at])

/-- Modelled from the spec: the RTIC scheduler is an external collaborator
(only the `capacity = 1` declaration on the gyro task is in src/).  Per
section 4.1 a task with bounded re-entrancy capacity queues at most
`capacity` pending invocations; a spawn beyond that fails and the new work
is dropped, leaving the queue unchanged. -/
def trySpawn {α : Type} (capacity : ℕ) (queue : List α) (item : α) :
    Except (List α) (List α) :=
  if queue.length < capacity then Except.ok (queue ++ [item])
  else Except.error queue

/-! ## Helper lemmas -/

/-- Mapping `some` over a list and filtering the successes back out is the
identity: a run of all-successful sensor reads calibrates over exactly those
samples. -/
theorem filterMap_id_map_some (l : List V3) :
    (l.map some).filterMap id = l := by
  induction l with
  | nil => rfl
  | cons x xs ih => simp [List.filterMap_cons, ih]

/-! ## Claims -/

/-- C4: for every decoded command frame, the enable line is driven to the
value of the enable field — high when true, low when false — and this
happens on every decoded frame, with no condition on the throttle value. -/
theorem on_rx_enable_unconditional (decode : List ℕ → Command) (maxDuty : ℕ)
    (s : DeviceState) (b : CircBuf) (hrecv : s.recv = some b) :
    (on_rx decode maxDuty s).en = (decode (rxDecodeInput b)).throttle_on := by
  unfold on_rx
  rw [hrecv]

/-- Witness for C4 at a concrete input: an out-of-range throttle (5.0) does
not stop the enable flag from being applied. -/
theorem on_rx_enable_unconditional_witness :
    (on_rx (fun _ => ⟨true, F32.fin 5⟩) 100
      ⟨some ⟨[0, 0, 0, 0], [0, 0, 0, 0], 8⟩, false, 3⟩).en = true :=
  on_rx_enable_unconditional _ _ _ _ rfl

/-- C5: a decoded command whose finite throttle is below 0.0 or above 1.0
leaves the duty register at its prior value: the guard on line 216 is false,
so no PWM write occurs. -/
theorem on_rx_out_of_range_keeps_duty (decode : List ℕ → Command)
    (maxDuty : ℕ) (s : DeviceState) (b : CircBuf) (q : ℚ)
    (hrecv : s.recv = some b)
    (ht : (decode (rxDecodeInput b)).throttle = F32.fin q)
    (hq : q < 0 ∨ 1 < q) :
    (on_rx decode maxDuty s).duty = s.duty := by
  unfold on_rx
  rw [hrecv]
  simp only [ht, F32.fle]
  rcases hq with hq | hq
  · rw [decide_eq_false (not_le.mpr hq)]
    simp
  · rw [decide_eq_false (not_le.mpr hq)]
    simp

/-- Witness for C5 at a concrete input: throttle 2.0 leaves a prior duty of 7
unchanged. -/
theorem on_rx_out_of_range_keeps_duty_witness :
    (on_rx (fun _ => ⟨true, F32.fin 2⟩) 100
      ⟨some ⟨[0, 0, 0, 0], [0, 0, 0, 0], 8⟩, false, 7⟩).duty = 7 :=
  on_rx_out_of_range_keeps_duty _ _ _ _ 2 rfl rfl (Or.inr (by norm_num))

/-- C10: a NaN throttle fails both range comparisons (both are false on NaN),
so the duty register keeps its prior value — NaN behaves exactly like an
out-of-range throttle. -/
theorem on_rx_nan_keeps_duty (decode : List ℕ → Command) (maxDuty : ℕ)
    (s : DeviceState) (b : CircBuf) (hrecv : s.recv = some b)
    (ht : (decode (rxDecodeInput b)).throttle = F32.nan) :
    F32.fle F32.nan (F32.fin 1) = false ∧
    F32.fle (F32.fin 0) F32.nan = false ∧
    (on_rx decode maxDuty s).duty = s.duty := by
  refine ⟨rfl, rfl, ?_⟩
  unfold on_rx
  rw [hrecv]
  simp [ht, F32.fle]

/-- Witness for C10 at a concrete input: a NaN throttle leaves a prior duty
of 9 unchanged. -/
theorem on_rx_nan_keeps_duty_witness :
    F32.fle F32.nan (F32.fin 1) = false ∧
    F32.fle (F32.fin 0) F32.nan = false ∧
    (on_rx (fun _ => ⟨true, F32.nan⟩) 100
      ⟨some ⟨[0, 0, 0, 0], [0, 0, 0, 0], 8⟩, false, 9⟩).duty = 9 :=
  on_rx_nan_keeps_duty _ _ _ _ rfl rfl

/-- C6: every handler invocation that takes the circular receive transfer
puts back a re-armed transfer on the same two slots before returning, with a
full double-length round pending. -/
theorem on_rx_rearms (decode : List ℕ → Command) (maxDuty : ℕ)
    (s : DeviceState) (b : CircBuf) (hrecv : s.recv = some b) :
    (on_rx decode maxDuty s).recv = some (rearm b) ∧
    (rearm b).ndtr = b.slot0.length * 2 := by
  refine ⟨?_, rfl⟩
  unfold on_rx
  rw [hrecv]

/-- Witness for C6 at a concrete input. -/
theorem on_rx_rearms_witness :
    (on_rx (fun _ => ⟨true, F32.nan⟩) 100
      ⟨some ⟨[1, 2, 3, 4], [0, 0, 0, 0], 6⟩, false, 0⟩).recv
      = some (rearm ⟨[1, 2, 3, 4], [0, 0, 0, 0], 6⟩) ∧
    (rearm ⟨[1, 2, 3, 4], [0, 0, 0, 0], 6⟩).ndtr = 8 :=
  on_rx_rearms _ _ _ _ rfl

/-- C9: at the end of init, before any command frame has been handled, the
enable output is low, whatever state the hardware booted in. -/
theorem init_enable_low (cap : ℕ) (s0 : DeviceState) :
    (init cap s0).en = false := rfl

/-- C3: calibration over N >= 1 all-successful gyro samples is the recursive
pairwise blend — a left fold of `(l + r) / 2` — and on the sample sequence
[0,0,0], [2,2,2], [4,4,4] it yields 5/2 per axis, which differs from the
arithmetic mean 2. -/
theorem calib_is_pairwise_blend :
    (∀ (g0 : V3) (gs : List V3) (a : V3),
      mpu_init ((g0 :: gs).map some) (some a) =
        some (gs.foldl calibBlend g0, a)) ∧
    reduceHalf [⟨0, 0, 0⟩, ⟨2, 2, 2⟩, ⟨4, 4, 4⟩]
      = some ⟨5/2, 5/2, 5/2⟩ ∧
    V3.mean [⟨0, 0, 0⟩, ⟨2, 2, 2⟩, ⟨4, 4, 4⟩] = some ⟨2, 2, 2⟩ ∧
    ((5 : ℚ)/2) ≠ 2 := by
  refine ⟨?_, ?_, ?_, by norm_num⟩
  · intro g0 gs a
    simp [mpu_init, calibOffset, filterMap_id_map_some, reduceHalf]
  · simp [reduceHalf, calibBlend]
    norm_num
  · simp [V3.mean]
    norm_num

/-- C8: when every one of the 2000 calibration gyro reads fails, mpu_init
aborts (the reduce is over an empty iterator, so the expect panics): no
orientation state is produced and gyro is never spawned. -/
theorem mpu_init_all_failed_aborts (reads : List (Option V3))
    (acc : Option V3) (_hlen : reads.length = 2000)
    (hfail : ∀ r ∈ reads, r = none) :
    mpu_init reads acc = none := by
  have h : reads.filterMap id = [] := by
    rw [List.filterMap_eq_nil_iff]
    intro a ha
    exact hfail a ha
  simp [mpu_init, calibOffset, h, reduceHalf]

/-- Witness for C8: 2000 failed reads produce no spawn arguments. -/
theorem mpu_init_all_failed_aborts_witness :
    mpu_init (List.replicate 2000 none) (some ⟨0, 0, 0⟩) = none :=
  mpu_init_all_failed_aborts _ _ (List.length_replicate 2000 none)
    (fun _ hr => List.eq_of_mem_replicate hr)

/-- C7: a completed gyro activation with both sensor reads successful
produces exactly one successor spawn, at monotonic time now + 4 microseconds;
and under the declared capacity of 1, a spawn attempted while one invocation
is already pending is rejected with the queue left unchanged, not queued. -/
theorem gyro_reschedules_once :
    (∀ (SO : Type) (adjust : SO → V3 → V3 → SO) (now : ℕ)
        (g a offset : V3) (s : SO),
      gyro adjust now (some g) (some a) offset s =
        some (adjust s (g.sub offset) a, [now + 4])) ∧
    (∀ (pending item : ℕ), trySpawn 1 [pending] item =
        Except.error [pending]) := by
  exact ⟨fun _ _ _ _ _ _ _ => rfl, fun _ _ => rfl⟩

/-- C1 counterexample: at max_duty = 3 and throttle = 0.5 (both exact in
f32, product 1.5 exact), the handler writes duty 1 — the Rust
`as u16` cast truncates 1.5 toward zero — while round(max_duty * t) is 2,
so the duty written is not round(max_duty * t). -/
theorem on_rx_duty_round_counterexample :
    (on_rx (fun _ => ⟨false, F32.fin (1/2)⟩) 3
      ⟨some ⟨[0, 0, 0, 0], [0, 0, 0, 0], 8⟩, false, 7⟩).duty = 1 ∧
    Int.toNat (round (((3 : ℕ) : ℚ) * (1/2))) = 2 ∧
    (1 : ℕ) ≠ 2 := by
  refine ⟨?_, ?_, by norm_num⟩
  · simp [on_rx, rxDecodeInput, F32.fle, F32.mul, F32.toU16]
    norm_num
  · rw [show round (((3 : ℕ) : ℚ) * (1/2)) = 2 by norm_num [round_eq]]
    rfl

/-- C1 amended: for a finite throttle q with 0 <= q <= 1 and max_duty at
most 65535 (it is a u16 in the source), the duty written is the truncation
of max_duty * q toward zero — the floor, since the product is nonnegative —
not its rounding. -/
theorem on_rx_duty_truncates (decode : List ℕ → Command) (maxDuty : ℕ)
    (s : DeviceState) (b : CircBuf) (q : ℚ)
    (hrecv : s.recv = some b)
    (ht : (decode (rxDecodeInput b)).throttle = F32.fin q)
    (h0 : 0 ≤ q) (h1 : q ≤ 1) (hmax : maxDuty ≤ 65535) :
    (on_rx decode maxDuty s).duty = Int.toNat ⌊(maxDuty : ℚ) * q⌋ := by
  unfold on_rx
  rw [hrecv]
  simp only [ht, F32.fle, decide_eq_true h1, decide_eq_true h0,
    Bool.and_self, if_pos, F32.mul, F32.toU16]
  have hnn : (0 : ℚ) ≤ (maxDuty : ℚ) * q :=
    mul_nonneg (Nat.cast_nonneg maxDuty) h0
  rw [if_neg (not_lt.mpr hnn)]
  have hfle : ⌊(maxDuty : ℚ) * q⌋ ≤ (maxDuty : ℤ) := by
    have : (maxDuty : ℚ) * q ≤ (maxDuty : ℚ) := by
      nlinarith [Nat.cast_nonneg (α := ℚ) maxDuty]
    calc ⌊(maxDuty : ℚ) * q⌋ ≤ ⌊(maxDuty : ℚ)⌋ := Int.floor_le_floor this
      _ = (maxDuty : ℤ) := Int.floor_natCast maxDuty
  have htoNat : Int.toNat ⌊(maxDuty : ℚ) * q⌋ ≤ 65535 := by
    have := Int.toNat_le_toNat hfle
    simpa using le_trans this hmax
  exact min_eq_right htoNat

/-- Witness for the amended C1 at max_duty = 3, throttle = 0.5: duty is
floor(1.5) = 1. -/
theorem on_rx_duty_truncates_witness :
    (on_rx (fun _ => ⟨false, F32.fin (1/2)⟩) 3
      ⟨some ⟨[0, 0, 0, 0], [0, 0, 0, 0], 8⟩, false, 7⟩).duty
      = Int.toNat ⌊((3 : ℕ) : ℚ) * (1/2)⌋ :=
  on_rx_duty_truncates _ 3 _ _ (1/2) rfl rfl (by norm_num) (by norm_num)
    (by norm_num)

/-- C2 counterexample: a partial fill of k = 2 bytes into a slot of
capacity 4 (NDTR = 6, so 2 * 4 - 6 = 2 bytes received).  The handler
computes that length but hands the decoder the whole first slot, of length
4, not 2 — and a decoder that inspects the slice length observes the full
capacity from inside on_rx. -/
theorem on_rx_full_slot_counterexample :
    rxComputedLen ⟨[10, 20, 30, 40], [0, 0, 0, 0], 6⟩ = 2 ∧
    (rxDecodeInput ⟨[10, 20, 30, 40], [0, 0, 0, 0], 6⟩).length = 4 ∧
    (4 : ℕ) ≠ 2 ∧
    (on_rx (fun l => ⟨decide (l.length = 4), F32.nan⟩) 100
      ⟨some ⟨[10, 20, 30, 40], [0, 0, 0, 0], 6⟩, false, 0⟩).en = true := by
  refine ⟨rfl, rfl, by norm_num, rfl⟩

/-- C2 amended: the handler computes the received length as
2 * capacity - remaining-count at line 203 but never uses it; the byte
sequence handed to the decoder is always the full first slot, of length
equal to the slot capacity, so the behaviour of on_rx depends on the
decoder only through its value on that full slot. -/
theorem on_rx_decode_sees_full_slot (decA decB : List ℕ → Command)
    (maxDuty : ℕ) (s : DeviceState) (b : CircBuf)
    (hrecv : s.recv = some b)
    (hagree : decA b.slot0 = decB b.slot0) :
    on_rx decA maxDuty s = on_rx decB maxDuty s ∧
    (rxDecodeInput b).length = b.slot0.length ∧
    rxComputedLen b = b.slot0.length * 2 - b.ndtr := by
  refine ⟨?_, rfl, rfl⟩
  unfold on_rx
  rw [hrecv]
  simp only [rxDecodeInput, hagree]

/-- Witness for the amended C2: two decoders that agree on the full first
slot give identical handler results, on a partially filled slot. -/
theorem on_rx_decode_sees_full_slot_witness :
    on_rx (fun l => ⟨decide (l.length = 4), F32.nan⟩) 100
      ⟨some ⟨[10, 20, 30, 40], [0, 0, 0, 0], 6⟩, false, 0⟩
      = on_rx (fun _ => ⟨true, F32.nan⟩) 100
      ⟨some ⟨[10, 20, 30, 40], [0, 0, 0, 0], 6⟩, false, 0⟩ ∧
    (rxDecodeInput ⟨[10, 20, 30, 40], [0, 0, 0, 0], 6⟩).length = 4 ∧
    rxComputedLen ⟨[10, 20, 30, 40], [0, 0, 0, 0], 6⟩ = 4 * 2 - 6 :=
  on_rx_decode_sees_full_slot _ _ _ _ _ rfl rfl

end Stm32
